import Mathlib

/-!
Verification of the visual state-detection and capture engine of the
tsw_hud_project repository (src/tsw_bot).  The Python sources are shallowly
embedded: images (numpy arrays of shape (h, w, 3)) become a structure with a
height, a width and a total pixel function; the floating-point mean
comparisons of the source compare integer pixel sums at a common denominator
(the sums are exact integers, so mean(|a-b|) < t is sum(|a-b|) < t * count;
an empty array gives numpy mean nan, and nan < t is False, which is modelled
by sum < t * 0 being False); the stateful interaction with the screen
(captures, scrolls, locate calls) becomes explicit environment parameters
(a frame per scroll position, a visibility bit per locate call).
-/

set_option autoImplicit false

/-- Absolute difference of two natural numbers, |a - b|. -/
def natAbsDiff (a b : Nat) : Nat := (a - b) + (b - a)

/-- Sum of f 0 + f 1 + ... + f (n-1). -/
def sumRange (f : Nat → Nat) : Nat → Nat
  | 0 => 0
  | n + 1 => sumRange f n + f n

/-- An RGB image: numpy array of shape (h, w, 3).  px row col channel. -/
structure Img where
  h : Nat
  w : Nat
  px : Nat → Nat → Nat → Nat

/-- Image of constant pixel value, used for concrete test frames. -/
def constImg (h w v : Nat) : Img := ⟨h, w, fun _ _ _ => v⟩

/-- Sum over the whole array of per-element absolute differences,
numpy sum(abs(a - b)) for same-shaped a and b (indexed by the shape of a). -/
def sumAbsDiff (a b : Img) : Nat :=
  sumRange (fun i => sumRange (fun j => sumRange (fun c =>
    natAbsDiff (a.px i j c) (b.px i j c)) 3) a.w) a.h

/-- frames_match from schedule_capture.py: shapes equal and
mean(abs(a - b)) < t, the mean written as sum < t * (h * w * 3). -/
def framesMatch (a b : Img) (t : Nat) : Bool :=
  decide (a.h = b.h) && decide (a.w = b.w) &&
    decide (sumAbsDiff a b < t * (a.h * a.w * 3))

/-- The spec frame-difference primitive changed(a,b) = mean(|a-b|) >= threshold,
the negation of frames_match at the default threshold 5. -/
def changed (a b : Img) : Bool := ! framesMatch a b 5

lemma natAbsDiff_comm (a b : Nat) : natAbsDiff a b = natAbsDiff b a :=
  Nat.add_comm _ _

lemma natAbsDiff_self (a : Nat) : natAbsDiff a a = 0 := by
  simp [natAbsDiff]

lemma sumRange_congr {f g : Nat → Nat} {n : Nat}
    (h : ∀ i, i < n → f i = g i) : sumRange f n = sumRange g n := by
  induction n with
  | zero => rfl
  | succ n ih =>
      simp only [sumRange]
      rw [ih (fun i hi => h i (Nat.lt_succ_of_lt hi)), h n (Nat.lt_succ_self n)]

lemma sumRange_eq_zero {f : Nat → Nat} {n : Nat}
    (h : ∀ i, i < n → f i = 0) : sumRange f n = 0 := by
  induction n with
  | zero => rfl
  | succ n ih =>
      simp only [sumRange]
      rw [ih (fun i hi => h i (Nat.lt_succ_of_lt hi)), h n (Nat.lt_succ_self n)]

lemma sumAbsDiff_self (a : Img) : sumAbsDiff a a = 0 := by
  apply sumRange_eq_zero
  intro i _
  apply sumRange_eq_zero
  intro j _
  apply sumRange_eq_zero
  intro c _
  exact natAbsDiff_self _

lemma sumAbsDiff_comm (a b : Img) (hh : a.h = b.h) (hw : a.w = b.w) :
    sumAbsDiff a b = sumAbsDiff b a := by
  unfold sumAbsDiff
  rw [← hh, ← hw]
  apply sumRange_congr
  intro i _
  apply sumRange_congr
  intro j _
  apply sumRange_congr
  intro c _
  exact natAbsDiff_comm _ _

/-- Claim C8 counterexample: the degenerate 0x0 frame is identical to itself
and has the same shape as itself, yet changed is true (the source computes
numpy mean of an empty array, which is nan, and nan < 5.0 is False, so
frames_match returns False). -/
theorem changed_empty_frame : changed (constImg 0 0 0) (constImg 0 0 0) = true := by
  decide

/-- Claim C8 (amended): for identical same-shaped frames with at least one
pixel, changed is false; for same-shaped frames with mean absolute difference
at or above the threshold, changed is true; changed is symmetric for all
frames. -/
theorem changed_spec :
    (∀ a : Img, 0 < a.h * a.w → changed a a = false)
    ∧ (∀ a b : Img, a.h = b.h → a.w = b.w →
        5 * (a.h * a.w * 3) ≤ sumAbsDiff a b → changed a b = true)
    ∧ (∀ a b : Img, changed a b = changed b a) := by
  refine ⟨?_, ?_, ?_⟩
  · intro a ha
    have hs : sumAbsDiff a a = 0 := sumAbsDiff_self a
    have hpos : 0 < 5 * (a.h * a.w * 3) := by positivity
    simp [changed, framesMatch, hs, hpos]
  · intro a b hh hw hge
    have : ¬ sumAbsDiff a b < 5 * (a.h * a.w * 3) := Nat.not_lt.mpr hge
    simp [changed, framesMatch, this]
  · intro a b
    by_cases hh : a.h = b.h
    · by_cases hw : a.w = b.w
      · have hs := sumAbsDiff_comm a b hh hw
        simp [changed, framesMatch, hh, hw, hs]
      · have hw2 : ¬ b.w = a.w := fun h => hw h.symm
        simp [changed, framesMatch, hw, hw2]
    · have hh2 : ¬ b.h = a.h := fun h => hh h.symm
      simp [changed, framesMatch, hh, hh2]

/-- Claim C8 witness: the amended theorem applied at concrete one-pixel and
two-row frames. -/
theorem changed_spec_witness :
    changed (constImg 1 1 7) (constImg 1 1 7) = false
    ∧ changed (constImg 1 1 0) (constImg 1 1 20) = true
    ∧ changed (constImg 1 1 0) (constImg 2 1 0) = changed (constImg 2 1 0) (constImg 1 1 0) :=
  ⟨changed_spec.1 (constImg 1 1 7) (by decide),
   changed_spec.2.1 (constImg 1 1 0) (constImg 1 1 20) rfl rfl (by decide),
   changed_spec.2.2 (constImg 1 1 0) (constImg 2 1 0)⟩

/-! Configuration constants from config.py used by the modelled functions. -/

/-- config.RETRY_MAX: total click attempts before giving up. -/
def RETRY_MAX : Nat := 3

/-- config.TRAIN_BOX_TOP. -/
def TRAIN_BOX_TOP : Nat := 418

/-- config.TRAIN_FIRST_Y_OFFSET: Y offset from TRAIN_BOX_TOP to the center of
the first train. -/
def TRAIN_FIRST_Y_OFFSET : Nat := 47

/-- config.TRAIN_BOX_STRIDE: distance between train box centers. -/
def TRAIN_BOX_STRIDE : Nat := 94

/-- schedule_capture.SCHEDULE_MAX_WIDTH. -/
def SCHEDULE_MAX_WIDTH : Nat := 1470

/-- config.SCHEDULE_COLOR_TOLERANCE. -/
def SCHEDULE_COLOR_TOLERANCE : Nat := 20

/-!
utils.py: _screen_changed and wait_and_click.

The screen is modelled by the sequence of outcomes of the successive
locateOnScreen calls made after the initial wait_for_image: env k is true
when the k-th such call finds the reference on screen, and false when it
raises the not-found condition.  The number of polls that fit in the
RETRY_WAIT window of _screen_changed is a parameter (it is wall-clock
derived in the source).  Click actions (mouseDown/mouseUp pairs) are counted
explicitly.
-/

/-- Result of the retry loop of wait_and_click: reported success, number of
click actions performed, and the index of the next locate call. -/
structure WCResult where
  success : Bool
  clicks : Nat
  next : Nat

/-- utils._screen_changed: poll up to `polls` times for the reference to
disappear; return true (screen changed) at the first poll that does not see
it, false if it stayed visible the whole window.  Second component is the
index of the next locate call. -/
def screenChangedP (env : Nat → Bool) (polls k : Nat) : Bool × Nat :=
  match polls with
  | 0 => (false, k)
  | p + 1 => if env k then screenChangedP env p (k + 1) else (true, k + 1)

/-- The retry loop of utils.wait_and_click (verify = true), with `r` the
number of attempts remaining.  Each call with r > 0 performs one click, then
polls for disappearance; on the last attempt a still-visible reference is a
failure; otherwise the reference is re-located, a vanished reference
(not-found raised) being success. -/
def clickAttempts (env : Nat → Bool) (polls : Nat) : Nat → Nat → WCResult
  | 0, k => ⟨false, 0, k⟩
  | r + 1, k =>
    let sc := screenChangedP env polls k
    match sc.1, r with
    | true, _ => ⟨true, 1, sc.2⟩
    | false, 0 => ⟨false, 1, sc.2⟩
    | false, rr + 1 =>
      if env sc.2 then
        let rest := clickAttempts env polls (rr + 1) (sc.2 + 1)
        ⟨rest.success, rest.clicks + 1, rest.next⟩
      else ⟨true, 1, sc.2 + 1⟩

/-- utils.wait_and_click: `found` is the outcome of the initial
wait_for_image; when verify is false the single click is immediately a
success.  Returns (reported result, number of click actions performed). -/
def waitAndClick (env : Nat → Bool) (polls : Nat) (found verify : Bool) : Bool × Nat :=
  if found then
    if verify then
      let r := clickAttempts env polls RETRY_MAX 0
      (r.success, r.clicks)
    else (true, 1)
  else (false, 0)

lemma screenChangedP_all_visible {env : Nat → Bool} {polls k : Nat}
    (h : ∀ j, j < polls → env (k + j) = true) :
    screenChangedP env polls k = (false, k + polls) := by
  induction polls generalizing k with
  | zero => rfl
  | succ p ih =>
      have h0 : env k = true := by simpa using h 0 (Nat.succ_pos p)
      have hrest : ∀ j, j < p → env (k + 1 + j) = true := by
        intro j hj
        have := h (j + 1) (Nat.succ_lt_succ hj)
        simpa [Nat.add_assoc, Nat.add_comm 1 j] using this
      simp only [screenChangedP, h0, if_true, ih hrest]
      have hk : k + 1 + p = k + (p + 1) := by omega
      rw [hk]

lemma screenChangedP_vanishes {env : Nat → Bool} {polls k : Nat}
    (h : ∃ j, j < polls ∧ env (k + j) = false) :
    (screenChangedP env polls k).1 = true := by
  induction polls generalizing k with
  | zero =>
      rcases h with ⟨j, hj, _⟩
      exact absurd hj (Nat.not_lt_zero j)
  | succ p ih =>
      by_cases h0 : env k = true
      · simp only [screenChangedP, h0, if_true]
        apply ih
        rcases h with ⟨j, hj, hv⟩
        match j, hj with
        | 0, _ => rw [Nat.add_zero] at hv; rw [hv] at h0; cases h0
        | j + 1, hj =>
            refine ⟨j, Nat.lt_of_succ_lt_succ hj, ?_⟩
            simpa [Nat.add_assoc, Nat.add_comm 1 j] using hv
      · have h0f : env k = false := Bool.eq_false_iff.mpr h0
        simp [screenChangedP, h0f]

lemma clickAttempts_clicks_le (env : Nat → Bool) (polls : Nat) :
    ∀ r k, (clickAttempts env polls r k).clicks ≤ r := by
  intro r
  induction r with
  | zero => intro k; simp [clickAttempts]
  | succ r ih =>
      intro k
      rcases hsc : screenChangedP env polls k with ⟨b, n⟩
      rcases b with _ | _
      · match r with
        | 0 => simp [clickAttempts, hsc]
        | rr + 1 =>
            by_cases he : env n = true
            · simp only [clickAttempts, hsc, he, if_true]
              exact Nat.succ_le_succ (ih _)
            · have hef : env n = false := Bool.eq_false_iff.mpr he
              simp [clickAttempts, hsc, hef]
      · simp [clickAttempts, hsc]

lemma clickAttempts_always_visible (polls : Nat) :
    ∀ r k, (clickAttempts (fun _ => true) polls (r + 1) k).success = false
      ∧ (clickAttempts (fun _ => true) polls (r + 1) k).clicks = r + 1 := by
  intro r
  induction r with
  | zero =>
      intro k
      have hsc : screenChangedP (fun _ => true) polls k = (false, k + polls) :=
        screenChangedP_all_visible (fun _ _ => rfl)
      simp [clickAttempts, hsc]
  | succ r ih =>
      intro k
      have hsc : screenChangedP (fun _ => true) polls k = (false, k + polls) :=
        screenChangedP_all_visible (fun _ _ => rfl)
      simp only [clickAttempts, hsc]
      have := ih (k + polls + 1)
      simp [this.1, this.2]

/-- Claim C2: with the reference visible through the whole first verification
window and at the first re-location, and disappearing during the second
verification window, wait_and_click reports success having performed exactly
2 click actions; in general the number of click actions never exceeds
RETRY_MAX, and an always-visible reference makes wait_and_click perform
RETRY_MAX clicks and report failure rather than raising. -/
theorem wait_and_click_spec (env : Nat → Bool) (polls : Nat)
    (h1 : ∀ j, j < polls → env j = true)
    (h2 : env polls = true)
    (h3 : ∃ j, j < polls ∧ env (polls + 1 + j) = false) :
    waitAndClick env polls true true = (true, 2)
    ∧ (∀ (e : Nat → Bool) (p : Nat) (f v : Bool), (waitAndClick e p f v).2 ≤ RETRY_MAX)
    ∧ (∀ p : Nat, waitAndClick (fun _ => true) p true true = (false, RETRY_MAX)) := by
  refine ⟨?_, ?_, ?_⟩
  · have hsc : screenChangedP env polls 0 = (false, polls) := by
      have := @screenChangedP_all_visible env polls 0
        (by intro j hj; simpa using h1 j hj)
      simpa using this
    have hsc2 : (screenChangedP env polls (polls + 1)).1 = true :=
      screenChangedP_vanishes h3
    have e2 : (clickAttempts env polls 2 (polls + 1)).success = true
        ∧ (clickAttempts env polls 2 (polls + 1)).clicks = 1 := by
      rcases hval : screenChangedP env polls (polls + 1) with ⟨b, n⟩
      rw [hval] at hsc2
      simp only [Prod.fst] at hsc2
      subst hsc2
      simp [clickAttempts, hval]
    have e1 : clickAttempts env polls RETRY_MAX 0 =
        ⟨(clickAttempts env polls 2 (polls + 1)).success,
         (clickAttempts env polls 2 (polls + 1)).clicks + 1,
         (clickAttempts env polls 2 (polls + 1)).next⟩ := by
      simp [RETRY_MAX, clickAttempts, hsc, h2]
    simp only [waitAndClick, if_true]
    rw [e1]
    simp [e2.1, e2.2]
  · intro e p f v
    have hle := clickAttempts_clicks_le e p RETRY_MAX 0
    unfold waitAndClick
    rcases f with _ | _
    · simp [RETRY_MAX]
    · rcases v with _ | _
      · simp [RETRY_MAX]
      · simpa using hle
  · intro p
    have h := clickAttempts_always_visible p 2 0
    simp only [waitAndClick, RETRY_MAX, if_true]
    rw [Prod.mk.injEq]
    exact ⟨h.1, h.2⟩

/-- Claim C2 witness: the environment in which the reference is visible at
locate calls 0..2 and gone from call 3 on, with a 2-poll verification
window. -/
theorem wait_and_click_spec_witness :
    waitAndClick (fun k => decide (k < 3)) 2 true true = (true, 2) :=
  (wait_and_click_spec (fun k => decide (k < 3)) 2
    (by decide) (by decide) ⟨0, by decide, by decide⟩).1

/-- Claim C6: if the reference stays visible through the whole first
verification window but the re-location that follows finds it absent
(not-found raised), wait_and_click reports success immediately, having
performed only the one click already made — the vanished element counts as a
screen change, not a failure. -/
theorem wait_and_click_vanish_spec (env : Nat → Bool) (polls : Nat)
    (h1 : ∀ j, j < polls → env j = true)
    (h2 : env polls = false) :
    waitAndClick env polls true true = (true, 1) := by
  have hsc : screenChangedP env polls 0 = (false, polls) := by
    have := @screenChangedP_all_visible env polls 0
      (by intro j hj; simpa using h1 j hj)
    simpa using this
  simp [waitAndClick, RETRY_MAX, clickAttempts, hsc, h2]

/-- Claim C6 witness: reference visible at locate calls 0 and 1 (the
verification window) and gone at the re-location call 2. -/
theorem wait_and_click_vanish_spec_witness :
    waitAndClick (fun k => decide (k < 2)) 2 true true = (true, 1) :=
  wait_and_click_vanish_spec (fun k => decide (k < 2)) 2 (by decide) (by decide)

/-!
navigator.click_train and service_loop.count_trains.

The scrollable train list is modelled by a world: cap s is the frame the
region capture shows when the list is scrolled s units down from the top,
and endPos is the saturation point — a one-unit scroll down moves the
position from p to min (p + 1) endPos, and the big initial overscroll up
puts the position at 0.  Scrolling back up by k units moves from p to p - k
(clamped at the top).
-/

/-- The scrollable-list environment: frame per scroll position and the
position at which downward scrolling saturates (the list end). -/
structure ScrollWorld where
  cap : Nat → Img
  endPos : Nat

/-- The inline frame comparison of click_train and count_trains:
mean(abs(before - after)) < 5.0 on the fixed capture region, written at the
common denominator of the mean. -/
def meanDiffLt5 (a b : Img) : Bool :=
  decide (sumAbsDiff a b < 5 * (a.h * a.w * 3))

/-- Step 2 of navigator.click_train: scroll down one box at a time, up to
`fuel` times from position p, comparing the before and after captures; stop
at the first scroll that does not change the frame.  Returns the number of
scrolls that succeeded. -/
def clickScrollLoop (w : ScrollWorld) : Nat → Nat → Nat
  | 0, _ => 0
  | fuel + 1, p =>
    if meanDiffLt5 (w.cap p) (w.cap (min (p + 1) w.endPos)) then 0
    else 1 + clickScrollLoop w fuel (min (p + 1) w.endPos)

/-- navigator.click_train index: after the overscroll to the top (position
0), run the scroll loop, then offset = index - scrolls_done and
click_y = TRAIN_BOX_TOP + TRAIN_FIRST_Y_OFFSET + offset * TRAIN_BOX_STRIDE.
Returns (scrolls_done, offset, click_y). -/
def clickTrain (w : ScrollWorld) (index : Nat) : Nat × Nat × Nat :=
  let scrollsDone := clickScrollLoop w index 0
  let offset := index - scrollsDone
  (scrollsDone, offset,
    TRAIN_BOX_TOP + TRAIN_FIRST_Y_OFFSET + offset * TRAIN_BOX_STRIDE)

lemma clickScrollLoop_le (w : ScrollWorld) :
    ∀ fuel p, clickScrollLoop w fuel p ≤ fuel := by
  intro fuel
  induction fuel with
  | zero => intro p; simp [clickScrollLoop]
  | succ fuel ih =>
      intro p
      simp only [clickScrollLoop]
      by_cases hm : meanDiffLt5 (w.cap p) (w.cap (min (p + 1) w.endPos)) = true
      · simp [hm]
      · have hmf := Bool.eq_false_iff.mpr hm
        simp only [hmf, Bool.false_eq_true, if_false]
        have := ih (min (p + 1) w.endPos)
        omega

lemma clickScrollLoop_eq_min (w : ScrollWorld)
    (hmove : ∀ p, p < w.endPos → meanDiffLt5 (w.cap p) (w.cap (p + 1)) = false)
    (hsz : 0 < (w.cap w.endPos).h * (w.cap w.endPos).w) :
    ∀ fuel p, p ≤ w.endPos → clickScrollLoop w fuel p = min fuel (w.endPos - p) := by
  intro fuel
  induction fuel with
  | zero => intro p _; simp [clickScrollLoop]
  | succ fuel ih =>
      intro p hp
      rcases Nat.lt_or_ge p w.endPos with hlt | hge
      · have hmin : min (p + 1) w.endPos = p + 1 := Nat.min_eq_left hlt
        have hm := hmove p hlt
        simp only [clickScrollLoop, hmin, hm, Bool.false_eq_true, if_false]
        rw [ih (p + 1) hlt]
        omega
      · have hpe : p = w.endPos := Nat.le_antisymm hp hge
        have hmin : min (p + 1) w.endPos = p := by omega
        have hszp : 0 < (w.cap p).h * (w.cap p).w := by rw [hpe]; exact hsz
        have hm : meanDiffLt5 (w.cap p) (w.cap p) = true := by
          have h0 : sumAbsDiff (w.cap p) (w.cap p) = 0 := sumAbsDiff_self _
          have hpos : 0 < 5 * ((w.cap p).h * (w.cap p).w * 3) := by positivity
          simp [meanDiffLt5, h0, hpos]
        simp only [clickScrollLoop, hmin, hm, if_true]
        omega

/-- Claim C1: under a world whose consecutive frames before the list end
differ and whose frames are nonempty, click_train scrolls
min index endPos times (the first no-change scroll stops the loop), reports
offset = index - scrolls_done, clicks at
TRAIN_BOX_TOP + TRAIN_FIRST_Y_OFFSET + offset * TRAIN_BOX_STRIDE, and in
general never performs more than index single-unit scrolls. -/
theorem click_train_spec (w : ScrollWorld) (index : Nat)
    (hmove : ∀ p, p < w.endPos → meanDiffLt5 (w.cap p) (w.cap (p + 1)) = false)
    (hsz : 0 < (w.cap w.endPos).h * (w.cap w.endPos).w) :
    clickTrain w index =
      (min index w.endPos, index - min index w.endPos,
        TRAIN_BOX_TOP + TRAIN_FIRST_Y_OFFSET
          + (index - min index w.endPos) * TRAIN_BOX_STRIDE)
    ∧ (∀ (w2 : ScrollWorld) (i p : Nat), clickScrollLoop w2 i p ≤ i) := by
  constructor
  · have hs := clickScrollLoop_eq_min w hmove hsz index 0 (Nat.zero_le _)
    simp only [clickTrain, hs, Nat.sub_zero]
  · exact fun w2 i p => clickScrollLoop_le w2 i p

/-- Claim C1 witness: a synthetic list whose frames change on scroll units
1 to 4 and hit the end on the fifth scroll unit; click_train 6 reports 4
successful scrolls, in-view offset 6 - 4 = 2, and click position
418 + 47 + 2 * 94 = 653. -/
theorem click_train_spec_witness :
    clickTrain ⟨fun p => constImg 1 1 (min p 4 * 10), 4⟩ 6 = (4, 2, 653) := by
  have h := click_train_spec ⟨fun p => constImg 1 1 (min p 4 * 10), 4⟩ 6
    (by decide) Nat.one_pos
  rw [h.1]
  decide

/-!
service_loop._count_visible_trains and count_trains.  The visible-entry
counter scans the first 3 columns for the #dedede border color, reduces the
per-row any-match mask to maximal runs, and keeps runs of height at least
40.  count_trains then scrolls one box at a time (at most 30 times),
stopping at the first frame that matches its predecessor, and scrolls back
up by the number of successful scrolls.
-/

/-- The #dedede train-entry border color of _count_visible_trains. -/
def TRAIN_ENTRY_BORDER_RGB : Nat → Nat := fun _ => 222

/-- One pixel matches a target color when every channel is within the
per-channel tolerance (numpy all over axis 2). -/
def pxMatches (img : Img) (row j : Nat) (color : Nat → Nat) (tol : Nat) : Bool :=
  (List.range 3).all (fun c => decide (natAbsDiff (img.px row j c) (color c) ≤ tol))

/-- Row mask of _count_visible_trains: any pixel of the first 3 columns
matches the border color within tolerance 20. -/
def rowHasBorder (img : Img) (r : Nat) : Bool :=
  (List.range (min 3 img.w)).any (fun j => pxMatches img r j TRAIN_ENTRY_BORDER_RGB 20)

/-- The run extraction loop of _count_visible_trains: walk the rows in
order keeping the start of the current run; a run closes at the first
non-matching row, and a run still open at the end closes at h. -/
def runsAux (pred : Nat → Bool) (h : Nat) : List Nat → Option Nat → List (Nat × Nat)
  | [], none => []
  | [], some s => [(s, h)]
  | r :: rs, none =>
      if pred r then runsAux pred h rs (some r) else runsAux pred h rs none
  | r :: rs, some s =>
      if pred r then runsAux pred h rs (some s) else (s, r) :: runsAux pred h rs none

/-- All maximal runs of consecutive rows satisfying pred among rows
0 .. h-1, as half-open intervals. -/
def runs (pred : Nat → Bool) (h : Nat) : List (Nat × Nat) :=
  runsAux pred h (List.range h) none

/-- service_loop._count_visible_trains: the number of border runs of height
at least the 40 pixel minimum entry height. -/
def countVisibleTrains (img : Img) : Nat :=
  ((runs (rowHasBorder img) img.h).filter (fun se => decide (40 ≤ se.2 - se.1))).length

/-- The scroll loop of count_trains: up to fuel single-box scrolls from
position p, stopping at the first frame that matches the previous one;
returns (number of frame-changing scrolls, final scroll position). -/
def countLoop (w : ScrollWorld) : Nat → Nat → Nat × Nat
  | 0, p => (0, p)
  | fuel + 1, p =>
    if meanDiffLt5 (w.cap p) (w.cap (min (p + 1) w.endPos)) then
      (0, min (p + 1) w.endPos)
    else
      ((countLoop w fuel (min (p + 1) w.endPos)).1 + 1,
       (countLoop w fuel (min (p + 1) w.endPos)).2)

/-- service_loop.count_trains from scroll position p: total is the visible
count of the first frame plus the successful scrolls; afterwards, when any
scroll succeeded, the list is scrolled back up by that many units (clamped
at the top).  Returns (total, final scroll position). -/
def countTrains (w : ScrollWorld) (p : Nat) : Nat × Nat :=
  let visible := countVisibleTrains (w.cap p)
  let r := countLoop w 30 p
  (visible + r.1, if 0 < r.1 then r.2 - r.1 else r.2)

lemma countLoop_eq (w : ScrollWorld)
    (hmove : ∀ p, p < w.endPos → meanDiffLt5 (w.cap p) (w.cap (p + 1)) = false)
    (hsz : 0 < (w.cap w.endPos).h * (w.cap w.endPos).w) :
    ∀ fuel p, p ≤ w.endPos →
      countLoop w fuel p
        = (min fuel (w.endPos - p), p + min fuel (w.endPos - p)) := by
  intro fuel
  induction fuel with
  | zero => intro p _; simp [countLoop]
  | succ fuel ih =>
      intro p hp
      rcases Nat.lt_or_ge p w.endPos with hlt | hge
      · have hmin : min (p + 1) w.endPos = p + 1 := Nat.min_eq_left hlt
        have hm := hmove p hlt
        simp only [countLoop, hmin, hm, Bool.false_eq_true, if_false]
        rw [ih (p + 1) hlt]
        rw [Prod.mk.injEq]
        constructor <;> simp <;> omega
      · have hpe : p = w.endPos := Nat.le_antisymm hp hge
        have hmin : min (p + 1) w.endPos = p := by omega
        have hszp : 0 < (w.cap p).h * (w.cap p).w := by rw [hpe]; exact hsz
        have hm : meanDiffLt5 (w.cap p) (w.cap p) = true := by
          have h0 : sumAbsDiff (w.cap p) (w.cap p) = 0 := sumAbsDiff_self _
          have hpos : 0 < 5 * ((w.cap p).h * (w.cap p).w * 3) := by positivity
          simp [meanDiffLt5, h0, hpos]
        simp only [countLoop, hmin, hm, if_true]
        rw [Prod.mk.injEq]
        constructor <;> omega

/-- Claim C3: on a list whose consecutive frames before the end differ and
whose frames are nonempty, count_trains returns
visible-in-first-frame + min endPos 30 (each frame-changing scroll adds 1,
the loop stops at the first matching frame or at the 30-iteration ceiling),
and restores the scroll position to the top by scrolling back; hence a
second count returns the same total and the capture after the second call
is the capture before the first. -/
theorem count_trains_spec (w : ScrollWorld)
    (hmove : ∀ p, p < w.endPos → meanDiffLt5 (w.cap p) (w.cap (p + 1)) = false)
    (hsz : 0 < (w.cap w.endPos).h * (w.cap w.endPos).w) :
    countTrains w 0 = (countVisibleTrains (w.cap 0) + min 30 w.endPos, 0)
    ∧ countTrains w (countTrains w 0).2 = countTrains w 0
    ∧ w.cap ((countTrains w (countTrains w 0).2).2) = w.cap 0 := by
  have hloop := countLoop_eq w hmove hsz 30 0 (Nat.zero_le _)
  rw [Nat.sub_zero] at hloop
  have h1 : countTrains w 0 = (countVisibleTrains (w.cap 0) + min 30 w.endPos, 0) := by
    simp only [countTrains, hloop]
    rw [Prod.mk.injEq]
    refine ⟨rfl, ?_⟩
    split <;> omega
  have h2 : (countTrains w 0).2 = 0 := by rw [h1]
  exact ⟨h1, by rw [h2], by rw [h2, h2]⟩

/-- Claim C3 witness: a synthetic two-scroll list with no visible border
entries; counting from the top yields total 2 and final position 0. -/
theorem count_trains_spec_witness :
    countTrains ⟨fun p => constImg 1 1 (min p 2 * 10), 2⟩ 0 = (2, 0) := by
  have h := count_trains_spec ⟨fun p => constImg 1 1 (min p 2 * 10), 2⟩
    (by decide) (by decide)
  rw [h.1]
  decide

set_option maxRecDepth 10000

/-!
schedule_capture.py: find_overlap, separator snapping, stitch_images,
crop_schedule and the stitch/crop part of capture_schedule.  Python slice
indices can be negative (prev_sep in stitch_images), so the slicing helpers
take an Int and follow the Python slice semantics: a negative index counts
from the end, and the result is clamped to the image.
-/

/-- schedule_capture.SEPARATOR_RGB, the dark line color between blocks. -/
def SEPARATOR_RGB : Nat → Nat := fun c => if c = 0 then 19 else if c = 1 then 44 else 57

/-- config.SCHEDULE_TOP_BORDER_RGB, the green content-block color. -/
def SCHEDULE_TOP_BORDER_RGB : Nat → Nat := fun c => if c = 0 then 5 else if c = 1 then 151 else 68

/-- config.SCHEDULE_BOTTOM_BORDER_RGB, the light blue content-block color. -/
def SCHEDULE_BOTTOM_BORDER_RGB : Nat → Nat := fun c => if c = 0 then 197 else if c = 1 then 228 else 233

/-- schedule_capture.BOX_COLORS, in source order. -/
def BOX_COLORS : List (Nat → Nat) := [SCHEDULE_BOTTOM_BORDER_RGB, SCHEDULE_TOP_BORDER_RGB]

/-- Number of columns of the central strip img[:, w/10 : w - w/10]. -/
def stripWidth (w : Nat) : Nat := (w - w / 10) - w / 10

/-- Number of pixels of the central strip of a row matching a color within
the per-channel tolerance. -/
def countColMatches (img : Img) (row : Nat) (color : Nat → Nat) (tol width : Nat) : Nat :=
  sumRange (fun j => if pxMatches img row (img.w / 10 + j) color tol then 1 else 0) width

/-- schedule_capture.is_separator_row: over 30 percent of the central strip
of the row matches SEPARATOR_RGB within tolerance 20 (the float mean > 0.3
written at the common denominator: 10 * count > 3 * width). -/
def isSeparatorRow (img : Img) (row : Nat) : Bool :=
  decide (3 * stripWidth img.w
    < 10 * countColMatches img row SEPARATOR_RGB 20 (stripWidth img.w))

/-- schedule_capture.find_nearest_separator search loop: at each offset try
target - offset then target + offset, returning the first in-bounds
separator row; after the search range, return the target itself. -/
def findNearestSepAux (img : Img) (target : Int) : Nat → Nat → Int
  | 0, _ => target
  | fuel + 1, off =>
    if 0 ≤ target - (off : Int) ∧ target - (off : Int) < (img.h : Int)
        ∧ isSeparatorRow img (target - (off : Int)).toNat = true then
      target - (off : Int)
    else if 0 ≤ target + (off : Int) ∧ target + (off : Int) < (img.h : Int)
        ∧ isSeparatorRow img (target + (off : Int)).toNat = true then
      target + (off : Int)
    else findNearestSepAux img target fuel (off + 1)

/-- schedule_capture.find_nearest_separator with the default search range
of 50 offsets. -/
def findNearestSeparator (img : Img) (target : Int) : Int :=
  findNearestSepAux img target 50 0

/-- Python slice img[:stop] with Int stop: negative counts from the end,
the result clamped to [0, h]. -/
def takeRowsInt (img : Img) (stop : Int) : Img :=
  ⟨(max 0 (min (if stop < 0 then (img.h : Int) + stop else stop) (img.h : Int))).toNat,
   img.w, img.px⟩

/-- Python slice img[start:] with Int start: negative counts from the end,
the result clamped to [0, h]. -/
def dropRowsInt (img : Img) (start : Int) : Img :=
  ⟨img.h - (max 0 (min (if start < 0 then (img.h : Int) + start else start) (img.h : Int))).toNat,
   img.w,
   fun i j c => img.px
     ((max 0 (min (if start < 0 then (img.h : Int) + start else start) (img.h : Int))).toNat + i)
     j c⟩

/-- numpy vstack of two images of equal width. -/
def vstackImg (a b : Img) : Img :=
  ⟨a.h + b.h, a.w, fun i j c => if i < a.h then a.px i j c else b.px (i - a.h) j c⟩

/-- Per-position difference of find_overlap: sum over the 40-row band
(rows 5..44 of curr against rows row..row+39 of prev) of per-element
absolute differences. -/
def bandDiffSum (prev curr : Img) (row : Nat) : Nat :=
  sumRange (fun r => sumRange (fun j => sumRange (fun c =>
    natAbsDiff (prev.px (row + r) j c) (curr.px (5 + r) j c)) 3) prev.w) 40

/-- The find_overlap scan over rows 0 .. n-1 of prev, keeping the first row
of strictly minimal difference: returns (best_row, best_diff sum), or none
when no position exists. -/
def bestScanUpTo (prev curr : Img) : Nat → Option (Nat × Nat)
  | 0 => none
  | n + 1 =>
    match bestScanUpTo prev curr n with
    | none => some (n, bandDiffSum prev curr n)
    | some (br, bd) =>
      if bandDiffSum prev curr n < bd then some (n, bandDiffSum prev curr n)
      else some (br, bd)

/-- schedule_capture.find_overlap: scan rows 0 .. h-41 of prev for the band
of curr; if the best mean difference is below 5.0 (sum below
5 * (40 * w * 3)), the overlap is h - best_row + 5 (5 = band_start),
otherwise 0. -/
def findOverlap (prev curr : Img) : Nat :=
  match bestScanUpTo prev curr (prev.h - 40) with
  | none => 0
  | some (br, bd) => if bd < 5 * (40 * prev.w * 3) then prev.h - br + 5 else 0

/-- One iteration of the stitch loop of stitch_images: acc is the
accumulated result, prevFrame and curr the consecutive original frames.
On positive overlap the cut snaps to the nearest separator in both images;
on zero overlap the full new frame is appended. -/
def stitchStep (acc prevFrame curr : Img) : Img :=
  if 0 < findOverlap prevFrame curr then
    let sepStart := findNearestSeparator curr (findOverlap prevFrame curr : Int)
    let newPart := dropRowsInt curr sepStart
    let res := takeRowsInt acc
      (findNearestSeparator acc ((acc.h : Int) - (findOverlap prevFrame curr : Int) + sepStart))
    if 0 < newPart.h then vstackImg res newPart else res
  else if 0 < curr.h then vstackImg acc curr else acc

/-- The fold of stitch_images over frames 1 .. n-1, carrying the
accumulated result and the previous original frame. -/
def stitchFold (acc prevFrame : Img) : List Img → Img
  | [] => acc
  | curr :: rest => stitchFold (stitchStep acc prevFrame curr) curr rest

/-- schedule_capture.stitch_images: absent on an empty frame list, the
single frame unchanged on a one-frame list, otherwise the pairwise fold. -/
def stitchImages : List Img → Option Img
  | [] => none
  | [a] => some a
  | a :: rest => some (stitchFold a a rest)

/-- A row of the central strip matches a content-block color: over 30
percent of the strip pixels within SCHEDULE_COLOR_TOLERANCE. -/
def rowMatchesBox (img : Img) (row : Nat) (color : Nat → Nat) : Bool :=
  decide (3 * stripWidth img.w
    < 10 * countColMatches img row color SCHEDULE_COLOR_TOLERANCE (stripWidth img.w))

/-- A row matches either of the two BOX_COLORS (the inner loop of
crop_schedule with its break). -/
def rowIsContent (img : Img) (row : Nat) : Bool :=
  BOX_COLORS.any (fun color => rowMatchesBox img row color)

/-- The bottom-up scan of crop_schedule over rows k-1, k-2, ..., 0,
carrying the running last_box_row (initially h).  A matching row k sets
last_box_row to k + 1, but the outer loop breaks only on the test
last_box_row < h, so a match at the bottom row (k + 1 = h) is
indistinguishable from no match: the scan continues and a higher matching
row overwrites the value. -/
def lastBoxRowAux (img : Img) : Nat → Nat → Nat
  | 0, last => last
  | k + 1, last =>
    let last2 := if rowIsContent img k then k + 1 else last
    if last2 < img.h then last2 else lastBoxRowAux img k last2

/-- last_box_row of crop_schedule, scanning all rows from the bottom with
the initial sentinel value h. -/
def lastBoxRow (img : Img) : Nat := lastBoxRowAux img img.h img.h

/-- schedule_capture.crop_schedule: keep rows 0 .. last_box_row - 1 and cap
the width at SCHEDULE_MAX_WIDTH. -/
def cropSchedule (img : Img) : Img :=
  ⟨lastBoxRow img, min img.w SCHEDULE_MAX_WIDTH, img.px⟩

/-- The stitch-and-report part of schedule_capture.capture_schedule:
clickOk is the outcome of wait_and_click on the Schedule tile, frames the
captured frame sequence; the saved artifact is the cropped stitch, and an
absent stitch is reported as an absent result (the source returns None
instead of a path; saving to disk is outside the model). -/
def captureSchedule (clickOk : Bool) (frames : List Img) : Option Img :=
  if clickOk then
    match stitchImages frames with
    | none => none
    | some s => some (cropSchedule s)
  else none

lemma bestScanUpTo_none {prev curr : Img} {n : Nat}
    (h : bestScanUpTo prev curr n = none) : n = 0 := by
  cases n with
  | zero => rfl
  | succ n =>
      exfalso
      simp only [bestScanUpTo] at h
      rcases hb : bestScanUpTo prev curr n with _ | ⟨br, bd⟩ <;> rw [hb] at h
      · simp at h
      · by_cases hlt : bandDiffSum prev curr n < bd <;> simp [hlt] at h

lemma bestScanUpTo_spec {prev curr : Img} :
    ∀ {n br bd}, bestScanUpTo prev curr n = some (br, bd) →
      br < n ∧ bd = bandDiffSum prev curr br
        ∧ ∀ r, r < n → bd ≤ bandDiffSum prev curr r := by
  intro n
  induction n with
  | zero => intro br bd h; simp [bestScanUpTo] at h
  | succ n ih =>
      intro br bd h
      simp only [bestScanUpTo] at h
      rcases hb : bestScanUpTo prev curr n with _ | ⟨br0, bd0⟩ <;> rw [hb] at h
      · have hn0 : n = 0 := bestScanUpTo_none hb
        subst hn0
        rcases h with ⟨rfl, rfl⟩
        refine ⟨Nat.zero_lt_one, rfl, ?_⟩
        intro r hr
        interval_cases r
        exact Nat.le_refl _
      · have ih0 := ih hb
        by_cases hlt : bandDiffSum prev curr n < bd0
        · simp only [hlt, if_true, Option.some.injEq, Prod.mk.injEq] at h
          rcases h with ⟨rfl, rfl⟩
          refine ⟨Nat.lt_succ_self n, rfl, ?_⟩
          intro r hr
          rcases Nat.lt_succ_iff_lt_or_eq.mp hr with hr2 | rfl
          · exact Nat.le_trans (Nat.le_of_lt hlt) (ih0.2.2 r hr2)
          · exact Nat.le_refl _
        · simp only [hlt, if_false, Option.some.injEq, Prod.mk.injEq] at h
          rcases h with ⟨rfl, rfl⟩
          refine ⟨Nat.lt_succ_of_lt ih0.1, ih0.2.1, ?_⟩
          intro r hr
          rcases Nat.lt_succ_iff_lt_or_eq.mp hr with hr2 | rfl
          · exact ih0.2.2 r hr2
          · exact Nat.le_of_not_lt hlt

lemma findOverlap_of_some {prev curr : Img} {br bd : Nat}
    (hb : bestScanUpTo prev curr (prev.h - 40) = some (br, bd)) :
    findOverlap prev curr
      = if bd < 5 * (40 * prev.w * 3) then prev.h - br + 5 else 0 := by
  unfold findOverlap
  rw [hb]

lemma findOverlap_of_none {prev curr : Img}
    (hb : bestScanUpTo prev curr (prev.h - 40) = none) :
    findOverlap prev curr = 0 := by
  unfold findOverlap
  rw [hb]

/-- Claim C4: when some slide position of the 40-row band of curr (rows
5..44) through prev has mean absolute difference below the 5.0 threshold,
find_overlap returns height(prev) - best_row + 5 for a best_row of minimal
difference; when no position is below the threshold it returns 0, and the
stitch loop then appends the full new frame with no trimming. -/
theorem find_overlap_spec (prev curr acc : Img) (rest : List Img) :
    ((∃ r, r < prev.h - 40 ∧ bandDiffSum prev curr r < 5 * (40 * prev.w * 3)) →
      ∃ br, br < prev.h - 40
        ∧ bandDiffSum prev curr br < 5 * (40 * prev.w * 3)
        ∧ (∀ r, r < prev.h - 40 → bandDiffSum prev curr br ≤ bandDiffSum prev curr r)
        ∧ findOverlap prev curr = prev.h - br + 5)
    ∧ ((∀ r, r < prev.h - 40 → ¬ bandDiffSum prev curr r < 5 * (40 * prev.w * 3)) →
      findOverlap prev curr = 0)
    ∧ (findOverlap prev curr = 0 → 0 < curr.h →
      stitchFold acc prev (curr :: rest) = stitchFold (vstackImg acc curr) curr rest) := by
  refine ⟨?_, ?_, ?_⟩
  · rintro ⟨r, hr, hlt⟩
    rcases hb : bestScanUpTo prev curr (prev.h - 40) with _ | ⟨br, bd⟩
    · exact absurd (bestScanUpTo_none hb ▸ hr) (Nat.not_lt_zero r)
    · obtain ⟨hbr, hbd, hmin⟩ := bestScanUpTo_spec hb
      have hbdlt : bd < 5 * (40 * prev.w * 3) :=
        Nat.lt_of_le_of_lt (hmin r hr) hlt
      refine ⟨br, hbr, hbd ▸ hbdlt, fun q hq => hbd ▸ hmin q hq, ?_⟩
      rw [findOverlap_of_some hb, if_pos hbdlt]
  · intro hall
    rcases hb : bestScanUpTo prev curr (prev.h - 40) with _ | ⟨br, bd⟩
    · exact findOverlap_of_none hb
    · obtain ⟨hbr, hbd, _⟩ := bestScanUpTo_spec hb
      have hnlt : ¬ bd < 5 * (40 * prev.w * 3) := hbd ▸ hall br hbr
      rw [findOverlap_of_some hb, if_neg hnlt]
  · intro h0 hch
    show stitchFold (stitchStep acc prev curr) curr rest = _
    have hstep : stitchStep acc prev curr = vstackImg acc curr := by
      unfold stitchStep
      rw [h0]
      simp [hch]
    rw [hstep]

set_option maxHeartbeats 2000000 in
/-- Claim C4 witness: a one-row prev gives an empty scan range, hence zero
overlap, and the stitch step appends the full two-row frame. -/
theorem find_overlap_spec_witness :
    stitchFold (constImg 1 1 9) (constImg 1 1 0) [constImg 2 1 5]
      = stitchFold (vstackImg (constImg 1 1 9) (constImg 2 1 5)) (constImg 2 1 5) [] :=
  (find_overlap_spec (constImg 1 1 0) (constImg 2 1 5) (constImg 1 1 9) []).2.2
    (by decide) (by decide)

/-- Claim C9: a nonzero find_overlap result always lies between
band_start + band_height + 1 = 46 and height(prev) + band_start = h + 5,
so a true visual overlap smaller than 46 rows is always reported as zero
overlap (the append-full-frame path). -/
theorem find_overlap_bounds (prev curr : Img)
    (hnz : findOverlap prev curr ≠ 0) :
    46 ≤ findOverlap prev curr ∧ findOverlap prev curr ≤ prev.h + 5 := by
  rcases hb : bestScanUpTo prev curr (prev.h - 40) with _ | ⟨br, bd⟩
  · exact absurd (findOverlap_of_none hb) hnz
  · obtain ⟨hbr, _, _⟩ := bestScanUpTo_spec hb
    by_cases hlt : bd < 5 * (40 * prev.w * 3)
    · have hval : findOverlap prev curr = prev.h - br + 5 := by
        rw [findOverlap_of_some hb, if_pos hlt]
      rw [hval]
      omega
    · exact absurd (by rw [findOverlap_of_some hb, if_neg hlt]) hnz

set_option maxHeartbeats 4000000 in
/-- Claim C9 witness: identical constant frames of height 41 give the
minimal nonzero overlap 46 = 41 - 0 + 5. -/
theorem find_overlap_bounds_witness :
    46 ≤ findOverlap (constImg 41 1 7) (constImg 45 1 7)
      ∧ findOverlap (constImg 41 1 7) (constImg 45 1 7) ≤ 41 + 5 :=
  find_overlap_bounds (constImg 41 1 7) (constImg 45 1 7) (by decide)

/-- Claim C7: stitch_images on an empty frame sequence returns the absent
result (the model is a total function, so no exception is possible), and
capture_schedule reports this by returning an absent result instead of a
saved image. -/
theorem stitch_empty_spec :
    stitchImages [] = none ∧ ∀ clickOk : Bool, captureSchedule clickOk [] = none := by
  refine ⟨rfl, ?_⟩
  intro clickOk
  cases clickOk <;> rfl

lemma lastBoxRowAux_le (img : Img) :
    ∀ k, k ≤ img.h → ∀ last, last ≤ img.h → lastBoxRowAux img k last ≤ img.h := by
  intro k
  induction k with
  | zero =>
      intro _ last hl
      simpa [lastBoxRowAux] using hl
  | succ k ih =>
      intro hk last hl
      have hk1 : k ≤ img.h := Nat.le_of_succ_le hk
      simp only [lastBoxRowAux]
      by_cases hc : rowIsContent img k = true
      · simp only [hc, if_true]
        by_cases hlt : k + 1 < img.h
        · simp only [hlt, if_true]
          omega
        · simp only [hlt, if_false]
          exact ih hk1 (k + 1) hk
      · have hcf := Bool.eq_false_iff.mpr hc
        simp only [hcf, Bool.false_eq_true, if_false]
        by_cases hlt : last < img.h
        · simp only [hlt, if_true]
          exact hl
        · simp only [hlt, if_false]
          exact ih hk1 last hl

lemma lastBoxRowAux_no_content (img : Img) :
    ∀ k, k ≤ img.h →
      (∀ q, q < k → q + 1 < img.h → rowIsContent img q = false) →
      lastBoxRowAux img k img.h = img.h := by
  intro k
  induction k with
  | zero => intro _ _; rfl
  | succ k ih =>
      intro hk hall
      simp only [lastBoxRowAux]
      by_cases hc : rowIsContent img k = true
      · have hk1 : ¬ k + 1 < img.h := by
          intro hlt
          have hfq := hall k (Nat.lt_succ_self k) hlt
          rw [hfq] at hc
          cases hc
        have hke : k + 1 = img.h := Nat.le_antisymm hk (Nat.le_of_not_lt hk1)
        simp only [hc, if_true, hk1, if_false]
        rw [hke]
        exact ih (Nat.le_of_succ_le hk) (fun q hq hq1 => hall q (Nat.lt_succ_of_lt hq) hq1)
      · have hcf := Bool.eq_false_iff.mpr hc
        have hnlt : ¬ img.h < img.h := Nat.lt_irrefl _
        simp only [hcf, Bool.false_eq_true, if_false, hnlt]
        exact ih (Nat.le_of_succ_le hk) (fun q hq hq1 => hall q (Nat.lt_succ_of_lt hq) hq1)

lemma lastBoxRowAux_found (img : Img) (r : Nat)
    (hc : rowIsContent img r = true) (hr1 : r + 1 < img.h) :
    ∀ k, r < k → k ≤ img.h →
      (∀ q, r < q → q < k → q + 1 < img.h → rowIsContent img q = false) →
      lastBoxRowAux img k img.h = r + 1 := by
  intro k
  induction k with
  | zero => intro hr _ _; exact absurd hr (Nat.not_lt_zero r)
  | succ k ih =>
      intro hr hk hno
      rcases Nat.lt_succ_iff_lt_or_eq.mp hr with hlt | heq
      · simp only [lastBoxRowAux]
        by_cases hck : rowIsContent img k = true
        · have hk1 : ¬ k + 1 < img.h := by
            intro h2
            have hfq := hno k hlt (Nat.lt_succ_self k) h2
            rw [hfq] at hck
            cases hck
          have hke : k + 1 = img.h := Nat.le_antisymm hk (Nat.le_of_not_lt hk1)
          simp only [hck, if_true, hk1, if_false]
          rw [hke]
          exact ih hlt (Nat.le_of_succ_le hk)
            (fun q h1 h2 h3 => hno q h1 (Nat.lt_succ_of_lt h2) h3)
        · have hcf := Bool.eq_false_iff.mpr hck
          have hnlt : ¬ img.h < img.h := Nat.lt_irrefl _
          simp only [hcf, Bool.false_eq_true, if_false, hnlt]
          exact ih hlt (Nat.le_of_succ_le hk)
            (fun q h1 h2 h3 => hno q h1 (Nat.lt_succ_of_lt h2) h3)
      · subst heq
        simp only [lastBoxRowAux]
        simp only [hc, if_true, hr1]

/-- Claim C5 (amended): when row r is the lowest row strictly above the
bottom row (r + 1 < height) whose central strip matches one of the two
content-block colors within tolerance, and no row between r and the bottom
row matches, crop_schedule keeps exactly rows 0 .. r (output height r + 1),
caps the width at min w SCHEDULE_MAX_WIDTH, and leaves the retained pixels
unchanged; a match at the very bottom row itself never stops the scan. -/
theorem crop_schedule_spec (img : Img) (r : Nat)
    (hr : r + 1 < img.h)
    (hc : rowIsContent img r = true)
    (hlast : ∀ q, q < img.h → r < q → q + 1 < img.h → rowIsContent img q = false) :
    (cropSchedule img).h = r + 1
    ∧ (cropSchedule img).w = min img.w SCHEDULE_MAX_WIDTH
    ∧ ∀ i j c, (cropSchedule img).px i j c = img.px i j c := by
  refine ⟨?_, rfl, fun i j c => rfl⟩
  show lastBoxRow img = r + 1
  exact lastBoxRowAux_found img r hc hr img.h (Nat.lt_of_succ_lt hr) (Nat.le_refl _)
    (fun q h1 h2 h3 => hlast q h2 h1 h3)

/-- A 3-row image every row of which matches a content-block color. -/
def allContentImg : Img := ⟨3, 10, fun _ _ c => SCHEDULE_BOTTOM_BORDER_RGB c⟩

/-- Claim C5 counterexample: in allContentImg the last content row scanning
upward from the bottom is row 2, so the claimed output keeps rows 0 .. 2
(height 3); but the source sets last_box_row = 3 there, which fails the
break test last_box_row < 3, so the scan continues and the match at row 1
crops the image to 2 rows. -/
theorem crop_schedule_spec_counterexample :
    rowIsContent allContentImg 2 = true
    ∧ allContentImg.h = 3
    ∧ (cropSchedule allContentImg).h = 2 := by
  decide

/-- The synthetic stitched schedule of the claim: 600 rows, content-block
color on rows 0 .. 499, black padding on rows 500 .. 599. -/
def synSchedImg : Img :=
  ⟨600, 10, fun i _ c => if i < 500 then SCHEDULE_BOTTOM_BORDER_RGB c else 0⟩

set_option maxHeartbeats 4000000 in
/-- Claim C5 witness: the synthetic schedule with content ending at row 500
and blank padding to row 600 crops to exactly 500 rows. -/
theorem crop_schedule_spec_witness : (cropSchedule synSchedImg).h = 500 :=
  (crop_schedule_spec synSchedImg 499 (by decide) (by decide) (by decide)).1

/-- Claim C10: when no row of the scanned central strip matches either
content-block color, crop_schedule keeps the full height; in every case the
output height never exceeds the input height, the output width is
min w SCHEDULE_MAX_WIDTH, and the retained pixels are those of the input
(the output is a sub-image). -/
theorem crop_schedule_bounds (img : Img) :
    ((∀ q, q < img.h → rowIsContent img q = false) → (cropSchedule img).h = img.h)
    ∧ (cropSchedule img).h ≤ img.h
    ∧ (cropSchedule img).w = min img.w SCHEDULE_MAX_WIDTH
    ∧ ∀ i j c, (cropSchedule img).px i j c = img.px i j c := by
  refine ⟨?_, ?_, rfl, fun i j c => rfl⟩
  · intro hall
    exact lastBoxRowAux_no_content img img.h (Nat.le_refl _) (fun q hq _ => hall q hq)
  · exact lastBoxRowAux_le img img.h (Nat.le_refl _) img.h (Nat.le_refl _)

/-- Claim C10 witness: an all-black image has no content row and keeps its
full 3-row height. -/
theorem crop_schedule_bounds_witness : (cropSchedule (constImg 3 3 0)).h = 3 :=
  (crop_schedule_bounds (constImg 3 3 0)).1 (by decide)
